import Mathlib

/-!
# Resume Search front end: the session state machine of `App.jsx`

A shallow embedding of the behavioural part of
`src/resume-search-frontend/src/App.jsx`: the React state of the `App`
component, the `topK` change handler, `handleSearch`, `sendFeedback` and the
initialiser of the `darkMode` preference, followed by theorems about them.

Conventions of the embedding.

* A React state setter is a pure update of one field of the state record.
* An `async` handler is cut at its `await`: the part that runs when the
  handler is invoked, and the part that runs when the awaited request settles
  (fulfilled or rejected).  The second part acts on whatever the state is at
  that moment, as the setters of React do.
* A JavaScript number is `JSNum`: `NaN`, the two infinities, or a finite
  double, held as the rational it is equal to (neither `Math.max` nor `>=`
  rounds).  Where a literal is converted, its value is rounded to the nearest
  double, ties to even.
-/

namespace ResumeSearch

/-! ## JavaScript numbers -/

/-- A JavaScript number value. -/
inductive JSNum where
  | nan
  | negInf
  | posInf
  | fin (q : ℚ)
  deriving DecidableEq

namespace JSNum

/-- The JavaScript comparison `a >= b`: false as soon as one side is `NaN`. -/
def ge : JSNum → JSNum → Bool
  | nan, _ => false
  | _, nan => false
  | posInf, _ => true
  | _, negInf => true
  | negInf, _ => false
  | _, posInf => false
  | fin p, fin q => decide (q ≤ p)

/-- The test `Number.isNaN`. -/
def isNaN : JSNum → Bool
  | nan => true
  | _ => false

end JSNum

/-- The function `Math.max` on two arguments: `NaN` if either argument is
`NaN`, otherwise the larger of the two. -/
def mathMax : JSNum → JSNum → JSNum
  | .nan, _ => .nan
  | _, .nan => .nan
  | .posInf, _ => .posInf
  | _, .posInf => .posInf
  | .negInf, y => y
  | x, .negInf => x
  | .fin p, .fin q => .fin (max p q)

/-! ## Numeric literals

The pieces of a decimal literal that `Number` and `JSON.parse` share. -/

namespace Lex

def isDigit (c : Char) : Bool := 48 ≤ c.toNat && c.toNat ≤ 57

def digitVal (c : Char) : Nat := c.toNat - 48

/-- The longest run of decimal digits at the head of the text: their values,
and the rest. -/
def takeDigits : List Char → List Nat × List Char
  | [] => ([], [])
  | c :: cs =>
    if isDigit c then ((digitVal c) :: (takeDigits cs).1, (takeDigits cs).2)
    else ([], c :: cs)

def digitsVal (ds : List Nat) : Nat := ds.foldl (fun a d => 10 * a + d) 0

/-- The digits of an exponent: at least one. -/
def parseExpDigits (cs : List Char) : Option (Nat × List Char) :=
  match takeDigits cs with
  | ([], _) => none
  | (d :: ds, rest) => some (digitsVal (d :: ds), rest)

/-- The optional exponent, as the factor it denotes: `e` or `E`, an optional
sign, at least one digit. -/
def parseExp (cs : List Char) : Option (ℚ × List Char) :=
  match cs with
  | c :: rest =>
    if c = 'e' ∨ c = 'E' then
      match rest with
      | s :: rest2 =>
        if s = '-' then (parseExpDigits rest2).map (fun r => (1 / (10 : ℚ) ^ r.1, r.2))
        else if s = '+' then (parseExpDigits rest2).map (fun r => ((10 : ℚ) ^ r.1, r.2))
        else (parseExpDigits rest).map (fun r => ((10 : ℚ) ^ r.1, r.2))
      | [] => none
    else some (1, cs)
  | [] => some (1, cs)

end Lex

/-! ## Rounding to a double -/

namespace Double

/-- The exponent `e` with `2 ^ e ≤ n / d < 2 ^ (e + 1)`, for positive `n` and
`d`. -/
def binaryExponent (n d : Nat) : Int :=
  if (if Nat.log2 d ≤ Nat.log2 n then d * 2 ^ (Nat.log2 n - Nat.log2 d) ≤ n
      else d ≤ n * 2 ^ (Nat.log2 d - Nat.log2 n))
  then (Nat.log2 n : Int) - (Nat.log2 d : Int)
  else (Nat.log2 n : Int) - (Nat.log2 d : Int) - 1

/-- The integer nearest to `n / d`, the even one of the two when `n / d` lies
half way. -/
def roundHalfEven (n d : Nat) : Nat :=
  if 2 * (n % d) < d then n / d
  else if d < 2 * (n % d) then n / d + 1
  else if (n / d) % 2 = 0 then n / d
  else n / d + 1

/-- The exponent of the unit in the last place of the doubles around `n / d`:
52 below the binary exponent, which for the subnormal range is held at
`-1022`. -/
def ulpExponent (n d : Nat) : Int :=
  max (binaryExponent n d) (-1022) - 52

/-- The magnitude `n / d` rounded to a multiple of the unit in the last place,
ties to even. -/
def roundMagnitude (n d : Nat) : ℚ :=
  if 0 ≤ ulpExponent n d then
    ((roundHalfEven n (d * 2 ^ (ulpExponent n d).toNat) * 2 ^ (ulpExponent n d).toNat : Nat) : ℚ)
  else
    ((roundHalfEven (n * 2 ^ (-(ulpExponent n d)).toNat) d : Nat) : ℚ)
      / ((2 ^ (-(ulpExponent n d)).toNat : Nat) : ℚ)

end Double

/-- The number value of a mathematical value: the double nearest to it, ties
to even, and the infinity of its sign when that rounding reaches `2 ^ 1024`.
The two zeros are one. -/
def JSNum.ofMV (q : ℚ) : JSNum :=
  if q = 0 then .fin 0
  else if (2 : ℚ) ^ 1024 ≤ Double.roundMagnitude q.num.natAbs q.den then
    (if q < 0 then .negInf else .posInf)
  else if q < 0 then .fin (-(Double.roundMagnitude q.num.natAbs q.den))
  else .fin (Double.roundMagnitude q.num.natAbs q.den)

/-- The conversion of a number to a boolean: false for `NaN` and for zero. -/
def JSNum.toBoolean : JSNum → Bool
  | .nan => false
  | .negInf => true
  | .posInf => true
  | .fin q => decide (q ≠ 0)

/-! ## The conversion `Number` of a text -/

namespace StrNum

/-- The characters that `Number` strips from both ends of a text: the white
space and line terminators of ECMAScript. -/
def isStrWhiteSpace (c : Char) : Bool :=
  c.toNat = 9 || c.toNat = 10 || c.toNat = 11 || c.toNat = 12 || c.toNat = 13 ||
  c.toNat = 32 || c.toNat = 160 || c.toNat = 5760 ||
  (8192 ≤ c.toNat && c.toNat ≤ 8202) ||
  c.toNat = 8232 || c.toNat = 8233 || c.toNat = 8239 || c.toNat = 8287 ||
  c.toNat = 12288 || c.toNat = 65279

def trim (cs : List Char) : List Char :=
  ((cs.dropWhile isStrWhiteSpace).reverse.dropWhile isStrWhiteSpace).reverse

/-- The value of a digit in a radix of 2, 8 or 16, when it is one. -/
def radixDigit (radix : Nat) (c : Char) : Option Nat :=
  if 48 ≤ c.toNat ∧ c.toNat ≤ 57 then
    (if c.toNat - 48 < radix then some (c.toNat - 48) else none)
  else if radix = 16 ∧ 97 ≤ c.toNat ∧ c.toNat ≤ 102 then some (c.toNat - 87)
  else if radix = 16 ∧ 65 ≤ c.toNat ∧ c.toNat ≤ 70 then some (c.toNat - 55)
  else none

/-- The value of a run of digits in the given radix that makes up the whole
text; `acc` is the value of the digits read so far. -/
def radixVal (radix : Nat) : List Char → Nat → Option Nat
  | [], acc => some acc
  | c :: cs, acc =>
    match radixDigit radix c with
    | none => none
    | some d => radixVal radix cs (radix * acc + d)

/-- A binary, octal or hexadecimal integer literal that makes up the whole
text: `0b`, `0o` or `0x` in either case, then at least one digit. -/
def nonDecimal (cs : List Char) : Option ℚ :=
  match cs with
  | z :: p :: d :: ds =>
    if z = '0' then
      if p = 'b' ∨ p = 'B' then (radixVal 2 (d :: ds) 0).map (fun n => (n : ℚ))
      else if p = 'o' ∨ p = 'O' then (radixVal 8 (d :: ds) 0).map (fun n => (n : ℚ))
      else if p = 'x' ∨ p = 'X' then (radixVal 16 (d :: ds) 0).map (fun n => (n : ℚ))
      else none
    else none
  | _ => none

/-- An unsigned decimal literal other than `Infinity` that makes up the whole
text: digits with an optional point and further digits, or a point and digits,
in either case with an optional exponent. -/
def unsignedDecimal (cs : List Char) : Option ℚ :=
  match Lex.takeDigits cs with
  | (intDigits, rest) =>
    match rest with
    | c :: rest2 =>
      if c = '.' then
        match Lex.takeDigits rest2 with
        | (fracDigits, rest3) =>
          if intDigits = [] ∧ fracDigits = [] then none
          else
            match Lex.parseExp rest3 with
            | some (e, []) =>
              some (((Lex.digitsVal intDigits : ℚ)
                + (Lex.digitsVal fracDigits : ℚ) / 10 ^ fracDigits.length) * e)
            | _ => none
      else if intDigits = [] then none
      else
        match Lex.parseExp rest with
        | some (e, []) => some ((Lex.digitsVal intDigits : ℚ) * e)
        | _ => none
    | [] => if intDigits = [] then none else some (Lex.digitsVal intDigits : ℚ)

/-- An unsigned decimal literal, `Infinity` included, as a number. -/
def unsignedLiteral (cs : List Char) : Option JSNum :=
  if cs = "Infinity".toList then some .posInf
  else (unsignedDecimal cs).map JSNum.ofMV

def negate : JSNum → JSNum
  | .nan => .nan
  | .negInf => .posInf
  | .posInf => .negInf
  | .fin q => .fin (-q)

/-- A numeric literal that makes up the whole text: a decimal literal with an
optional sign, or a binary, octal or hexadecimal literal without sign. -/
def numericLiteral (cs : List Char) : Option JSNum :=
  match cs with
  | [] => none
  | c :: rest =>
    if c = '+' then unsignedLiteral rest
    else if c = '-' then (unsignedLiteral rest).map negate
    else
      match nonDecimal (c :: rest) with
      | some q => some (JSNum.ofMV q)
      | none => unsignedLiteral (c :: rest)

end StrNum

/-- The function `Number` on a text: `0` for a text that is empty or white
space only, the value of the numeric literal that the text holds between
white space, and `NaN` for every other text. -/
def Number (text : String) : JSNum :=
  match StrNum.trim text.toList with
  | [] => .fin 0
  | c :: cs => (StrNum.numericLiteral (c :: cs)).getD .nan

/-! ## Data model -/

/-- One element of a search response. -/
structure SearchResult where
  sentence_hash : String
  text : String
  source : Option String
  score : Option JSNum
  justification : Option String
  deriving DecidableEq

/-- The React state of `App` that belongs to the search session
(`App.jsx` lines 6 to 11). -/
structure SessionState where
  query : String
  results : List SearchResult
  topK : JSNum
  rerank : Bool
  loading : Bool
  error : String
  deriving DecidableEq

/-- The `useState` defaults of lines 6 to 11. -/
def initialState : SessionState :=
  { query := "", results := [], topK := .fin 5, rerank := true,
    loading := false, error := "" }

/-! ## State setters -/

def setQuery (s : SessionState) (v : String) : SessionState := { s with query := v }

def setResults (s : SessionState) (v : List SearchResult) : SessionState :=
  { s with results := v }

def setTopK (s : SessionState) (v : JSNum) : SessionState := { s with topK := v }

def setRerank (s : SessionState) (v : Bool) : SessionState := { s with rerank := v }

def setLoading (s : SessionState) (v : Bool) : SessionState := { s with loading := v }

def setError (s : SessionState) (v : String) : SessionState := { s with error := v }

/-! ## Field edits -/

/-- The `onChange` of the query input (line 84). -/
def queryOnChange (s : SessionState) (value : String) : SessionState :=
  setQuery s value

/-- The `onChange` of the result-count input (line 103):
`setTopK(Math.max(1, Number(e.target.value)))`.  The argument `value` is the
text `e.target.value`. -/
def topKOnChange (s : SessionState) (value : String) : SessionState :=
  setTopK s (mathMax (.fin 1) (Number value))

/-- The unsigned part of a valid floating-point number of the HTML standard
that makes up the whole text: digits, or optional digits with a point and at
least one digit, then an optional exponent. -/
def Html.validUnsigned (cs : List Char) : Bool :=
  match Lex.takeDigits cs with
  | (intDigits, rest) =>
    match rest with
    | c :: rest2 =>
      if c = '.' then
        match Lex.takeDigits rest2 with
        | (fracDigits, rest3) =>
          if fracDigits = [] then false
          else
            match Lex.parseExp rest3 with
            | some (_, []) => true
            | _ => false
      else if intDigits = [] then false
      else
        match Lex.parseExp rest with
        | some (_, []) => true
        | _ => false
    | [] => if intDigits = [] then false else true

/-- A valid floating-point number of the HTML standard: an optional minus
sign, then the unsigned part. -/
def Html.isValidFloatingPointNumber (cs : List Char) : Bool :=
  match cs with
  | [] => false
  | c :: rest => if c = '-' then Html.validUnsigned rest else Html.validUnsigned (c :: rest)

/-- The text that the result-count input reports as `e.target.value` for the
text entered in it.  The input is declared `type="number"` (line 100), whose
value sanitization keeps a valid floating-point number and replaces any other
text by the empty text. -/
def numberInputValue (entered : String) : String :=
  if Html.isValidFloatingPointNumber entered.toList then entered else ""

/-- An edit of the result count: the text entered in the input of lines 99 to
105, and the `onChange` handler run on the value that the input reports. -/
def enterTopK (s : SessionState) (entered : String) : SessionState :=
  topKOnChange s (numberInputValue entered)

/-- The `onChange` of the rerank checkbox (line 111). -/
def rerankOnChange (s : SessionState) (checked : Bool) : SessionState :=
  setRerank s checked

/-! ## Search -/

/-- The body of the request `POST /search` (lines 35 to 39). -/
structure SearchRequest where
  query : String
  top_k : JSNum
  rerank : Bool
  deriving DecidableEq

/-- The body of a failure response, as far as `handleSearch` reads it: the
member `detail`, when the body has one (a string). -/
structure ErrorBody where
  detail : Option String
  deriving DecidableEq

/-- The member `err.response`: a response with or without a body. -/
structure ErrorResponse where
  data : Option ErrorBody
  deriving DecidableEq

/-- The value caught by `catch (err)` in `handleSearch`: a transport failure
has no `response`, a non-2xx answer has one. -/
structure SearchError where
  response : Option ErrorResponse
  deriving DecidableEq

/-- The expression `err.response?.data?.detail` (line 46). -/
def errorDetail (err : SearchError) : Option String :=
  match err.response with
  | none => none
  | some r =>
    match r.data with
    | none => none
    | some d => d.detail

/-- The expression `err.response?.data?.detail || 'Search failed'` (line 46):
`||` yields its right operand when the left one is falsy, which for a string
means empty, and for an absent member means `undefined`. -/
def searchErrorMessage (err : SearchError) : String :=
  match errorDetail err with
  | none => "Search failed"
  | some d => if d = "" then "Search failed" else d

/-- How the awaited `axios.post` of `handleSearch` settles. -/
inductive SearchOutcome where
  | fulfilled (data : List SearchResult)
  | rejected (err : SearchError)
  deriving DecidableEq

/-- The request that `handleSearch` builds from the state (lines 35 to 39). -/
def searchRequest (s : SessionState) : SearchRequest :=
  { query := s.query, top_k := s.topK, rerank := s.rerank }

/-- The part of `handleSearch` that runs on submission (lines 32 to 35):
`setLoading(true)`, `setError('')`, and the request is sent. -/
def handleSearchSubmit (s : SessionState) : SessionState × SearchRequest :=
  (setError (setLoading s true) "", searchRequest s)

/-- The part of `handleSearch` that runs when the request settles (lines 44
to 49): `setResults(response.data)` on fulfilment, `setError(...)` on
rejection, and `setLoading(false)` in the `finally` block. -/
def handleSearchSettle (s : SessionState) : SearchOutcome → SessionState
  | .fulfilled data => setLoading (setResults s data) false
  | .rejected err => setLoading (setError s (searchErrorMessage err)) false

/-- A whole run of `handleSearch` with nothing in between: submission, then
the settlement `o` of its request. -/
def handleSearch (s : SessionState) (o : SearchOutcome) : SessionState :=
  handleSearchSettle (handleSearchSubmit s).1 o

/-! ## Feedback -/

/-- The body of the request `POST /feedback` (lines 54 to 58). -/
structure FeedbackRequest where
  query : String
  sentence_hash : String
  is_relevant : Bool
  deriving DecidableEq

/-- A notification raised through `react-hot-toast`. -/
inductive Toast where
  | success (message : String)
  | error (message : String)
  deriving DecidableEq

/-- How the awaited `axios.post` of `sendFeedback` settles. -/
inductive FeedbackOutcome where
  | fulfilled
  | rejected
  deriving DecidableEq

/-- What a call of `sendFeedback` leaves behind: the session state, the
requests it sent and the notifications it raised, in order. -/
structure FeedbackRun where
  state : SessionState
  requests : List FeedbackRequest
  toasts : List Toast
  deriving DecidableEq

/-- The function `sendFeedback` (lines 52 to 63): one `axios.post`, then
`toast.success` in the `try` branch or `toast.error` in the `catch` branch.
No state setter is called. -/
def sendFeedback (s : SessionState) (sentenceHash : String) (isRelevant : Bool)
    (o : FeedbackOutcome) : FeedbackRun :=
  let request : FeedbackRequest :=
    { query := s.query, sentence_hash := sentenceHash, is_relevant := isRelevant }
  match o with
  | .fulfilled =>
    { state := s, requests := [request],
      toasts := [Toast.success (if isRelevant then "Marked Relevant" else "Marked Not Relevant")] }
  | .rejected =>
    { state := s, requests := [request], toasts := [Toast.error "Feedback failed"] }

/-! ## The session as a transition system -/

/-- The events that act on the session state. -/
inductive Event where
  | editQuery (value : String)
  | editTopK (value : String)
  | editRerank (checked : Bool)
  | submitSearch
  | searchSettled (o : SearchOutcome)
  | feedback (sentenceHash : String) (isRelevant : Bool) (o : FeedbackOutcome)
  deriving DecidableEq

/-- The effect of one event on the state. -/
def step (s : SessionState) : Event → SessionState
  | .editQuery v => queryOnChange s v
  | .editTopK v => topKOnChange s v
  | .editRerank b => rerankOnChange s b
  | .submitSearch => (handleSearchSubmit s).1
  | .searchSettled o => handleSearchSettle s o
  | .feedback h r o => (sendFeedback s h r o).state

/-- The state after a sequence of events, oldest first. -/
def run (s : SessionState) (es : List Event) : SessionState :=
  es.foldl step s

/-- The state after a sequence of edits of the result count, given by the
texts entered. -/
def runTopKEntries (s : SessionState) (entries : List String) : SessionState :=
  entries.foldl enterTopK s

/-- The state is not loading, or else it shows no error. -/
def LoadingExcludesError (s : SessionState) : Prop :=
  s.loading = false ∨ s.error = ""

/-- Two overlapping runs of `handleSearch`: a second submission while the
request of the first is pending, then the two settlements in the order in which
they arrive.  A settlement carries no reference to its submission, so the
state it leaves depends only on that order. -/
def overlappingSearches (s : SessionState) (first last : SearchOutcome) : SessionState :=
  handleSearchSettle
    (handleSearchSettle (handleSearchSubmit (handleSearchSubmit s).1).1 first) last

/-- The fields that a search writes when it settles. -/
def searchView (s : SessionState) : List SearchResult × Bool × String :=
  (s.results, s.loading, s.error)

/-- Whether two settlements are of the same kind: both fulfilled or both
rejected. -/
def SearchOutcome.sameKind : SearchOutcome → SearchOutcome → Bool
  | .fulfilled _, .fulfilled _ => true
  | .rejected _, .rejected _ => true
  | _, _ => false

/-! ## The display preference

Line 13 initialises `darkMode` with
`JSON.parse(localStorage.getItem('darkMode')) || false`.  `JSON.parse` is
embedded as a parser of the JSON grammar (ECMA-404) over the characters of the
text. -/

/-- A value produced by `JSON.parse`.  A string is kept as its UTF-16 code
units, an object as its members in the order of the text. -/
inductive JSValue where
  | null
  | bool (b : Bool)
  | number (n : JSNum)
  | string (units : List Nat)
  | array (elements : List JSValue)
  | object (members : List (List Nat × JSValue))

/-- What the initialiser of `darkMode` throws. -/
inductive JSError where
  | syntaxError
  deriving DecidableEq

namespace Json

def chQuote : Char := Char.ofNat 34

def chBackslash : Char := Char.ofNat 92

def chOpenBrace : Char := Char.ofNat 123

def chCloseBrace : Char := Char.ofNat 125

/-- JSON white space: tab, line feed, carriage return, space. -/
def isWs (c : Char) : Bool :=
  c.toNat = 9 || c.toNat = 10 || c.toNat = 13 || c.toNat = 32

def skipWs : List Char → List Char
  | [] => []
  | c :: cs => if isWs c then skipWs cs else c :: cs

/-- The value of a hexadecimal digit. -/
def hexVal (c : Char) : Option Nat :=
  if 48 ≤ c.toNat ∧ c.toNat ≤ 57 then some (c.toNat - 48)
  else if 97 ≤ c.toNat ∧ c.toNat ≤ 102 then some (c.toNat - 87)
  else if 65 ≤ c.toNat ∧ c.toNat ≤ 70 then some (c.toNat - 55)
  else none

/-- The UTF-16 code units of a character. -/
def utf16 (c : Char) : List Nat :=
  if c.toNat < 65536 then [c.toNat]
  else [55296 + (c.toNat - 65536) / 1024, 56320 + (c.toNat - 65536) % 1024]

/-- The code unit denoted by the character after a backslash, for the escapes
other than `\u`. -/
def simpleEscape (c : Char) : Option Nat :=
  if c = chQuote then some 34
  else if c = chBackslash then some 92
  else if c = '/' then some 47
  else if c = 'b' then some 8
  else if c = 'f' then some 12
  else if c = 'n' then some 10
  else if c = 'r' then some 13
  else if c = 't' then some 9
  else none

/-- The characters of a string after its opening quote, up to and including
the closing quote.  `acc` holds the code units read so far, newest first. -/
def parseStringBody : Nat → List Char → List Nat → Option (List Nat × List Char)
  | 0, _, _ => none
  | _ + 1, [], _ => none
  | fuel + 1, c :: cs, acc =>
    if c = chQuote then some (acc.reverse, cs)
    else if c = chBackslash then
      match cs with
      | [] => none
      | e :: rest =>
        if e = 'u' then
          match rest with
          | h1 :: h2 :: h3 :: h4 :: rest4 =>
            match hexVal h1, hexVal h2, hexVal h3, hexVal h4 with
            | some a, some b, some c, some d =>
              parseStringBody fuel rest4 ((((a * 16 + b) * 16 + c) * 16 + d) :: acc)
            | _, _, _, _ => none
          | _ => none
        else
          match simpleEscape e with
          | some u => parseStringBody fuel rest (u :: acc)
          | none => none
    else if c.toNat < 32 then none
    else parseStringBody fuel cs ((utf16 c).reverse ++ acc)

/-- A string whose opening quote has been read. -/
def parseString (cs : List Char) : Option (List Nat × List Char) :=
  parseStringBody (cs.length + 1) cs []

/-- The integer part of a number: a single `0`, or a digit from 1 to 9
followed by digits. -/
def parseInt (cs : List Char) : Option (Nat × List Char) :=
  match cs with
  | [] => none
  | c :: rest =>
    if c = '0' then some (0, rest)
    else if Lex.isDigit c then some (Lex.digitsVal (Lex.takeDigits (c :: rest)).1, (Lex.takeDigits (c :: rest)).2)
    else none

/-- The optional fraction: a point followed by at least one digit. -/
def parseFrac (cs : List Char) : Option (ℚ × List Char) :=
  match cs with
  | c :: rest =>
    if c = '.' then
      match Lex.takeDigits rest with
      | ([], _) => none
      | (d :: ds, rest2) => some ((Lex.digitsVal (d :: ds) : ℚ) / 10 ^ (d :: ds).length, rest2)
    else some (0, cs)
  | [] => some (0, cs)

/-- A number without its sign. -/
def parseUnsigned (cs : List Char) : Option (ℚ × List Char) :=
  match parseInt cs with
  | none => none
  | some (i, rest) =>
    match parseFrac rest with
    | none => none
    | some (f, rest2) =>
      match Lex.parseExp rest2 with
      | none => none
      | some (e, rest3) => some (((i : ℚ) + f) * e, rest3)

/-- A JSON number. -/
def parseNumber (cs : List Char) : Option (ℚ × List Char) :=
  match cs with
  | c :: rest =>
    if c = '-' then (parseUnsigned rest).map (fun r => (-r.1, r.2))
    else parseUnsigned cs
  | [] => none

mutual

/-- A JSON value with the white space before and after it. -/
def parseValue : Nat → List Char → Option (JSValue × List Char)
  | 0, _ => none
  | fuel + 1, cs =>
    match skipWs cs with
    | [] => none
    | 'n' :: 'u' :: 'l' :: 'l' :: rest => some (.null, skipWs rest)
    | 't' :: 'r' :: 'u' :: 'e' :: rest => some (.bool true, skipWs rest)
    | 'f' :: 'a' :: 'l' :: 's' :: 'e' :: rest => some (.bool false, skipWs rest)
    | c :: rest =>
      if c = chQuote then
        match parseString rest with
        | none => none
        | some (units, rest2) => some (.string units, skipWs rest2)
      else if c = '[' then
        match skipWs rest with
        | [] => none
        | d :: rest2 =>
          if d = ']' then some (.array [], skipWs rest2)
          else parseElements fuel (d :: rest2) []
      else if c = chOpenBrace then
        match skipWs rest with
        | [] => none
        | d :: rest2 =>
          if d = chCloseBrace then some (.object [], skipWs rest2)
          else parseMembers fuel (d :: rest2) []
      else
        match parseNumber (c :: rest) with
        | none => none
        | some (q, rest2) => some (.number (JSNum.ofMV q), skipWs rest2)

/-- The elements of a non-empty array, up to and including the closing
bracket.  `acc` holds the elements read so far, newest first. -/
def parseElements : Nat → List Char → List JSValue → Option (JSValue × List Char)
  | 0, _, _ => none
  | fuel + 1, cs, acc =>
    match parseValue fuel cs with
    | none => none
    | some (v, rest) =>
      match rest with
      | [] => none
      | d :: rest2 =>
        if d = ',' then parseElements fuel rest2 (v :: acc)
        else if d = ']' then some (.array (v :: acc).reverse, skipWs rest2)
        else none

/-- The members of a non-empty object, up to and including the closing brace.
`acc` holds the members read so far, newest first. -/
def parseMembers : Nat → List Char → List (List Nat × JSValue) → Option (JSValue × List Char)
  | 0, _, _ => none
  | fuel + 1, cs, acc =>
    match skipWs cs with
    | [] => none
    | q :: rest =>
      if q = chQuote then
        match parseString rest with
        | none => none
        | some (key, rest2) =>
          match skipWs rest2 with
          | [] => none
          | colon :: rest3 =>
            if colon = ':' then
              match parseValue fuel rest3 with
              | none => none
              | some (v, rest4) =>
                match rest4 with
                | [] => none
                | d :: rest5 =>
                  if d = ',' then parseMembers fuel rest5 ((key, v) :: acc)
                  else if d = chCloseBrace then
                    some (.object ((key, v) :: acc).reverse, skipWs rest5)
                  else none
            else none
      else none

end

end Json

/-- The function `JSON.parse` on a text: the value of the text when the whole
of it is one JSON value, a `SyntaxError` otherwise.  Every recursive call of
the parser follows at most one call that reads no character, so twice the
length of the text is fuel enough. -/
def jsonParse (text : String) : Except JSError JSValue :=
  match Json.parseValue (2 * text.length + 2) text.toList with
  | some (v, []) => .ok v
  | _ => .error .syntaxError

/-- The function `JSON.stringify` on a boolean (line 19 applies it to
`darkMode`). -/
def jsonStringifyBool (b : Bool) : String := if b then "true" else "false"

/-- The conversion of a value to a boolean for `||` and for conditions. -/
def JSValue.truthy : JSValue → Bool
  | .null => false
  | .bool b => b
  | .number n => n.toBoolean
  | .string units => !units.isEmpty
  | .array _ => true
  | .object _ => true

/-- The initialiser of `darkMode` (line 13):
`JSON.parse(localStorage.getItem('darkMode')) || false`.  The argument is what
`localStorage.getItem('darkMode')` returns: `none` for `null`, which
`JSON.parse` converts to the text `null`.  An exception of `JSON.parse` is not
caught. -/
def loadDarkMode (stored : Option String) : Except JSError JSValue :=
  match jsonParse (stored.getD "null") with
  | .error e => .error e
  | .ok v => if v.truthy then .ok v else .ok (.bool false)

/-! ## Theorems -/

/-! ### Helper lemmas -/

theorem mathMax_one_ge (v : JSNum) (h : v.isNaN = false) :
    JSNum.ge (mathMax (.fin 1) v) (.fin 1) = true := by
  cases v with
  | nan => simp [JSNum.isNaN] at h
  | negInf => simp [mathMax, JSNum.ge]
  | posInf => simp [mathMax, JSNum.ge]
  | fin q => simp [mathMax, JSNum.ge]

/-! #### The value of the result-count input never converts to `NaN` -/

theorem isDigit_not_ws (c : Char) (h : Lex.isDigit c = true) :
    StrNum.isStrWhiteSpace c = false := by
  simp only [Lex.isDigit, Bool.and_eq_true, decide_eq_true_eq] at h
  simp only [StrNum.isStrWhiteSpace, Bool.or_eq_false_iff, Bool.and_eq_false_iff,
    decide_eq_false_iff_not]
  omega

theorem takeDigits_split (cs : List Char) :
    ∃ pre, cs = pre ++ (Lex.takeDigits cs).2 ∧ ∀ c ∈ pre, Lex.isDigit c = true := by
  induction cs with
  | nil => exact ⟨[], by simp [Lex.takeDigits]⟩
  | cons c cs ih =>
    obtain ⟨pre, hpre, hd⟩ := ih
    by_cases hc : Lex.isDigit c = true
    · refine ⟨c :: pre, ?_, ?_⟩
      · simp only [Lex.takeDigits, hc, if_true, List.cons_append]
        exact congrArg (List.cons c) hpre
      · intro x hx
        rcases List.mem_cons.mp hx with h | h
        · rw [h]; exact hc
        · exact hd x h
    · exact ⟨[], by simp [Lex.takeDigits, hc]⟩

theorem takeDigits_nil_rest (cs : List Char) (h : (Lex.takeDigits cs).2 = []) :
    ∀ c ∈ cs, Lex.isDigit c = true := by
  obtain ⟨pre, hpre, hd⟩ := takeDigits_split cs
  rw [h, List.append_nil] at hpre
  rw [hpre]; exact hd

theorem parseExpDigits_nil (cs : List Char) (n : Nat)
    (h : Lex.parseExpDigits cs = some (n, [])) : ∀ c ∈ cs, Lex.isDigit c = true := by
  apply takeDigits_nil_rest
  unfold Lex.parseExpDigits at h
  split at h
  · exact Option.noConfusion h
  · rename_i d ds rest heq
    simp only [Option.some.injEq, Prod.mk.injEq] at h
    rw [heq]; exact h.2

theorem map_parseExpDigits_nil (cs : List Char) (g : Nat × List Char → ℚ × List Char)
    (hg : ∀ r, (g r).2 = r.2) (e : ℚ)
    (h : (Lex.parseExpDigits cs).map g = some (e, [])) :
    ∀ c ∈ cs, Lex.isDigit c = true := by
  cases hp : Lex.parseExpDigits cs with
  | none => rw [hp] at h; exact Option.noConfusion h
  | some r =>
    rw [hp] at h
    simp only [Option.map_some', Option.some.injEq] at h
    obtain ⟨n, rest⟩ := r
    have hrest : rest = [] := by
      have h2 := hg (n, rest)
      rw [h] at h2
      exact h2.symm
    subst hrest
    exact parseExpDigits_nil cs n hp

theorem parseExp_nil (cs : List Char) (e : ℚ) (h : Lex.parseExp cs = some (e, [])) :
    ∀ c ∈ cs, StrNum.isStrWhiteSpace c = false := by
  cases cs with
  | nil => intro c hc; cases hc
  | cons c rest =>
    unfold Lex.parseExp at h
    by_cases hc : c = 'e' ∨ c = 'E'
    · have hcw : StrNum.isStrWhiteSpace c = false := by
        rcases hc with hc | hc <;> (rw [hc]; decide)
      simp only [hc, if_true] at h
      cases rest with
      | nil => exact Option.noConfusion h
      | cons s rest2 =>
        simp only at h
        intro x hx
        rcases List.mem_cons.mp hx with hx | hx
        · rw [hx]; exact hcw
        · by_cases hs : s = '-'
          · simp only [hs, if_true] at h
            rcases List.mem_cons.mp hx with hx | hx
            · rw [hx, hs]; decide
            · exact isDigit_not_ws x
                (map_parseExpDigits_nil rest2 _ (fun _ => rfl) e h x hx)
          · by_cases hs2 : s = '+'
            · simp only [hs2, if_true] at h
              have h2 : (Lex.parseExpDigits rest2).map (fun r => ((10 : ℚ) ^ r.1, r.2))
                  = some (e, []) := by
                simpa using h
              rcases List.mem_cons.mp hx with hx | hx
              · rw [hx, hs2]; decide
              · exact isDigit_not_ws x
                  (map_parseExpDigits_nil rest2 _ (fun _ => rfl) e h2 x hx)
            · simp only [hs, hs2, if_false] at h
              exact isDigit_not_ws x
                (map_parseExpDigits_nil (s :: rest2) _ (fun _ => rfl) e h x hx)
    · simp only [hc, if_false, Option.some.injEq, Prod.mk.injEq] at h
      exact absurd h.2 (List.cons_ne_nil c rest)

theorem parseExp_whole_not_ws (rest : List Char)
    (h : (match Lex.parseExp rest with
          | some (_, []) => true
          | _ => false) = true) :
    ∀ c ∈ rest, StrNum.isStrWhiteSpace c = false := by
  cases hp : Lex.parseExp rest with
  | none => rw [hp] at h; exact Bool.noConfusion h
  | some r =>
    obtain ⟨e, r3⟩ := r
    cases r3 with
    | nil => exact parseExp_nil rest e hp
    | cons x xs => rw [hp] at h; exact Bool.noConfusion h

theorem validUnsigned_not_ws (cs : List Char) (h : Html.validUnsigned cs = true) :
    ∀ c ∈ cs, StrNum.isStrWhiteSpace c = false := by
  obtain ⟨pre, hpre, hd⟩ := takeDigits_split cs
  unfold Html.validUnsigned at h
  generalize Lex.takeDigits cs = td at h hpre
  obtain ⟨intDigits, rest⟩ := td
  simp only at h hpre
  have hpreWs : ∀ c ∈ pre, StrNum.isStrWhiteSpace c = false :=
    fun c hc => isDigit_not_ws c (hd c hc)
  cases rest with
  | nil =>
    rw [hpre, List.append_nil]
    exact hpreWs
  | cons c rest2 =>
    simp only at h
    by_cases hc : c = '.'
    · simp only [hc, if_true] at h
      obtain ⟨pre2, hpre2, hd2⟩ := takeDigits_split rest2
      generalize Lex.takeDigits rest2 = td2 at h hpre2
      obtain ⟨fracDigits, rest3⟩ := td2
      simp only at h hpre2
      by_cases hf : fracDigits = []
      · simp only [hf, if_true] at h
        exact Bool.noConfusion h
      · simp only [hf, if_false] at h
        have h3 := parseExp_whole_not_ws rest3 h
        intro x hx
        rw [hpre, hpre2] at hx
        rcases List.mem_append.mp hx with hx | hx
        · exact hpreWs x hx
        · rcases List.mem_cons.mp hx with hx | hx
          · rw [hx, hc]; decide
          · rcases List.mem_append.mp hx with hx | hx
            · exact isDigit_not_ws x (hd2 x hx)
            · exact h3 x hx
    · simp only [hc, if_false] at h
      by_cases hi : intDigits = []
      · simp only [hi, if_true] at h
        exact Bool.noConfusion h
      · simp only [hi, if_false] at h
        have h3 := parseExp_whole_not_ws (c :: rest2) h
        intro x hx
        rw [hpre] at hx
        rcases List.mem_append.mp hx with hx | hx
        · exact hpreWs x hx
        · exact h3 x hx

theorem validUnsigned_unsignedDecimal (cs : List Char) (h : Html.validUnsigned cs = true) :
    ∃ q, StrNum.unsignedDecimal cs = some q := by
  unfold Html.validUnsigned at h
  unfold StrNum.unsignedDecimal
  generalize Lex.takeDigits cs = td at h
  obtain ⟨intDigits, rest⟩ := td
  simp only at h ⊢
  cases rest with
  | nil =>
    simp only at h ⊢
    by_cases hi : intDigits = []
    · simp only [hi, if_true] at h
      exact Bool.noConfusion h
    · simp only [hi, if_false]
      exact ⟨_, rfl⟩
  | cons c rest2 =>
    simp only at h ⊢
    by_cases hc : c = '.'
    · simp only [hc, if_true] at h ⊢
      generalize Lex.takeDigits rest2 = td2 at h
      obtain ⟨fracDigits, rest3⟩ := td2
      simp only at h ⊢
      by_cases hf : fracDigits = []
      · simp only [hf, if_true] at h
        exact Bool.noConfusion h
      · simp only [hf, if_false] at h
        simp only [hf, and_false, if_false]
        cases hp : Lex.parseExp rest3 with
        | none => rw [hp] at h; exact Bool.noConfusion h
        | some r =>
          obtain ⟨e, r3⟩ := r
          cases r3 with
          | nil => exact ⟨_, rfl⟩
          | cons x xs => rw [hp] at h; exact Bool.noConfusion h
    · simp only [hc, if_false] at h ⊢
      by_cases hi : intDigits = []
      · simp only [hi, if_true] at h
        exact Bool.noConfusion h
      · simp only [hi, if_false] at h ⊢
        cases hp : Lex.parseExp (c :: rest2) with
        | none => rw [hp] at h; exact Bool.noConfusion h
        | some r =>
          obtain ⟨e, r3⟩ := r
          cases r3 with
          | nil => exact ⟨_, rfl⟩
          | cons x xs => rw [hp] at h; exact Bool.noConfusion h

theorem dropWhile_ws_self (cs : List Char)
    (h : ∀ c ∈ cs, StrNum.isStrWhiteSpace c = false) :
    cs.dropWhile StrNum.isStrWhiteSpace = cs := by
  cases cs with
  | nil => rfl
  | cons c rest =>
    have hc := h c (List.mem_cons_self c rest)
    simp [List.dropWhile, hc]

theorem trim_self (cs : List Char) (h : ∀ c ∈ cs, StrNum.isStrWhiteSpace c = false) :
    StrNum.trim cs = cs := by
  unfold StrNum.trim
  rw [dropWhile_ws_self cs h]
  have hr : ∀ c ∈ cs.reverse, StrNum.isStrWhiteSpace c = false :=
    fun c hc => h c (List.mem_reverse.mp hc)
  rw [dropWhile_ws_self cs.reverse hr, List.reverse_reverse]

theorem ofMV_not_nan (q : ℚ) : (JSNum.ofMV q).isNaN = false := by
  unfold JSNum.ofMV
  split_ifs <;> rfl

theorem negate_not_nan (n : JSNum) (h : n.isNaN = false) :
    (StrNum.negate n).isNaN = false := by
  cases n <;> simp_all [StrNum.negate, JSNum.isNaN]

theorem unsignedLiteral_of_valid (cs : List Char) (h : Html.validUnsigned cs = true) :
    ∃ n, StrNum.unsignedLiteral cs = some n ∧ n.isNaN = false := by
  obtain ⟨q, hq⟩ := validUnsigned_unsignedDecimal cs h
  unfold StrNum.unsignedLiteral
  by_cases hi : cs = "Infinity".toList
  · exact ⟨JSNum.posInf, by rw [if_pos hi], rfl⟩
  · exact ⟨JSNum.ofMV q, by rw [if_neg hi, hq]; rfl, ofMV_not_nan q⟩

theorem validUnsigned_head_ne_plus (rest : List Char) :
    Html.validUnsigned ('+' :: rest) = false := by
  have hd : Lex.isDigit '+' = false := by decide
  simp [Html.validUnsigned, Lex.takeDigits, hd]

theorem numericLiteral_of_valid (cs : List Char)
    (h : Html.isValidFloatingPointNumber cs = true) :
    ∃ n, StrNum.numericLiteral cs = some n ∧ n.isNaN = false := by
  cases cs with
  | nil => exact Bool.noConfusion h
  | cons c rest =>
    unfold Html.isValidFloatingPointNumber at h
    unfold StrNum.numericLiteral
    by_cases hm : c = '-'
    · simp only [hm, if_true] at h
      obtain ⟨n, hn, hnan⟩ := unsignedLiteral_of_valid rest h
      have hp : ¬ ('-' = '+') := by decide
      refine ⟨StrNum.negate n, ?_, negate_not_nan n hnan⟩
      simp [hm, hn]
    · simp only [hm, if_false] at h
      have hp : ¬ c = '+' := by
        intro hc
        rw [hc, validUnsigned_head_ne_plus] at h
        exact Bool.noConfusion h
      simp only [hp, hm, if_false]
      cases hnd : StrNum.nonDecimal (c :: rest) with
      | some q => exact ⟨JSNum.ofMV q, rfl, ofMV_not_nan q⟩
      | none => exact unsignedLiteral_of_valid (c :: rest) h

theorem valid_not_ws (cs : List Char) (h : Html.isValidFloatingPointNumber cs = true) :
    ∀ c ∈ cs, StrNum.isStrWhiteSpace c = false := by
  cases cs with
  | nil => exact Bool.noConfusion h
  | cons c rest =>
    unfold Html.isValidFloatingPointNumber at h
    by_cases hm : c = '-'
    · simp only [hm, if_true] at h
      intro x hx
      rcases List.mem_cons.mp hx with hx | hx
      · rw [hx, hm]; decide
      · exact validUnsigned_not_ws rest h x hx
    · simp only [hm, if_false] at h
      exact validUnsigned_not_ws (c :: rest) h

theorem Number_numberInputValue_not_nan (entered : String) :
    (Number (numberInputValue entered)).isNaN = false := by
  unfold numberInputValue
  by_cases hv : Html.isValidFloatingPointNumber entered.toList = true
  · simp only [hv, if_true]
    unfold Number
    rw [trim_self entered.toList (valid_not_ws entered.toList hv)]
    obtain ⟨n, hn, hnan⟩ := numericLiteral_of_valid entered.toList hv
    cases hl : entered.toList with
    | nil => rfl
    | cons c cs =>
      rw [hl] at hn
      simp only [hn, Option.getD_some]
      exact hnan
  · have hv2 : Html.isValidFloatingPointNumber entered.toList = false := by
      simpa using hv
    simp only [hv2, Bool.false_eq_true, if_false]
    rfl

theorem enterTopK_ge (s : SessionState) (entered : String) :
    JSNum.ge (enterTopK s entered).topK (.fin 1) = true := by
  simpa [enterTopK, topKOnChange, setTopK]
    using mathMax_one_ge (Number (numberInputValue entered))
      (Number_numberInputValue_not_nan entered)

theorem runTopKEntries_ge (entries : List String) :
    ∀ s : SessionState, JSNum.ge s.topK (.fin 1) = true →
      JSNum.ge (runTopKEntries s entries).topK (.fin 1) = true := by
  induction entries with
  | nil => intro s hs; simpa [runTopKEntries] using hs
  | cons v vs ih =>
    intro s _
    simpa [runTopKEntries] using ih (enterTopK s v) (enterTopK_ge s v)

/-! #### The exclusion of `loading` and `error` -/

theorem step_preserves (s : SessionState) (e : Event) (h : LoadingExcludesError s) :
    LoadingExcludesError (step s e) := by
  cases e with
  | editQuery v => simpa [step, queryOnChange, setQuery, LoadingExcludesError] using h
  | editTopK v => simpa [step, topKOnChange, setTopK, LoadingExcludesError] using h
  | editRerank b => simpa [step, rerankOnChange, setRerank, LoadingExcludesError] using h
  | submitSearch =>
    simp [step, handleSearchSubmit, setError, setLoading, LoadingExcludesError]
  | searchSettled o =>
    cases o <;>
      simp [step, handleSearchSettle, setError, setLoading, setResults, LoadingExcludesError]
  | feedback hash r o =>
    cases o <;> simpa [step, sendFeedback, LoadingExcludesError] using h

theorem run_preserves (es : List Event) :
    ∀ s : SessionState, LoadingExcludesError s → LoadingExcludesError (run s es) := by
  induction es with
  | nil => intro s hs; simpa [run] using hs
  | cons e es ih =>
    intro s hs
    simpa [run] using ih (step s e) (step_preserves s e hs)

/-! ### The result count -/

/-- The values that the input reports for some entered texts, and the `topK`
that an edit stores for them: text that is not a number is reported as the
empty text and stored as `1`, as are the empty text, zero and a negative
number; a fraction above one is stored as it is. -/
theorem enterTopK_examples :
    numberInputValue "abc" = "" ∧
    (enterTopK initialState "abc").topK = JSNum.fin 1 ∧
    (enterTopK initialState "").topK = JSNum.fin 1 ∧
    (enterTopK initialState "0").topK = JSNum.fin 1 ∧
    (enterTopK initialState "-3").topK = JSNum.fin 1 ∧
    (enterTopK initialState "0.5").topK = JSNum.fin 1 ∧
    (enterTopK initialState "2.5").topK = JSNum.fin (5 / 2) ∧
    (enterTopK initialState "7").topK = JSNum.fin 7 := by
  decide!

/-- The clamp of the handler does not by itself keep `NaN` out: run on the
text `abc`, which the input never reports, the handler stores `NaN`.  The bound
on `topK` rests on the type of the input. -/
theorem topKOnChange_unsanitised :
    (topKOnChange initialState "abc").topK = JSNum.nan := by
  decide

/-- C1: in every state reached from the initial state by any sequence of
`topK` edits, whatever the texts entered (empty, zero, negative, fractional or
not a number), the stored `topK` is `>= 1`; the request that `handleSearch`
builds from the state has that `topK` as its `top_k`, which is therefore
`>= 1`. -/
theorem C1_topK_ge_one (entries : List String) :
    JSNum.ge (runTopKEntries initialState entries).topK (JSNum.fin 1) = true ∧
    (handleSearchSubmit (runTopKEntries initialState entries)).2.top_k
      = (runTopKEntries initialState entries).topK ∧
    JSNum.ge (handleSearchSubmit (runTopKEntries initialState entries)).2.top_k
      (JSNum.fin 1) = true := by
  have h0 : JSNum.ge initialState.topK (JSNum.fin 1) = true := by
    simp [initialState, JSNum.ge]
  have hk := runTopKEntries_ge entries initialState h0
  exact ⟨hk, rfl, by simpa [handleSearchSubmit, searchRequest] using hk⟩

/-! ### Search -/

/-- C2: for every state and every list of results, a run of `handleSearch`
whose request is fulfilled with that list leaves `results` equal to the list
(same length, same order, same elements) and `loading` false. -/
theorem C2_search_success (s : SessionState) (data : List SearchResult) :
    (handleSearch s (.fulfilled data)).results = data ∧
    (handleSearch s (.fulfilled data)).results.length = data.length ∧
    (handleSearch s (.fulfilled data)).loading = false := by
  simp [handleSearch, handleSearchSubmit, handleSearchSettle, setLoading, setResults, setError]

/-- C3: for every state and every rejection (with or without a response, a
body or a detail), a run of `handleSearch` leaves `results`, `query`, `topK`
and `rerank` as they were before it. -/
theorem C3_search_failure_frame (s : SessionState) (err : SearchError) :
    (handleSearch s (.rejected err)).results = s.results ∧
    (handleSearch s (.rejected err)).query = s.query ∧
    (handleSearch s (.rejected err)).topK = s.topK ∧
    (handleSearch s (.rejected err)).rerank = s.rerank := by
  simp [handleSearch, handleSearchSubmit, handleSearchSettle, setLoading, setError]

/-- C4, as stated, fails: a failure response whose detail is the empty string
leaves `error` equal to `Search failed`, not to the detail. -/
theorem C4_empty_detail_counterexample :
    errorDetail { response := some { data := some { detail := some "" } } } = some "" ∧
    (handleSearch initialState
      (.rejected { response := some { data := some { detail := some "" } } })).error
      = "Search failed" ∧
    (handleSearch initialState
      (.rejected { response := some { data := some { detail := some "" } } })).error ≠ "" := by
  decide

/-- C4, amended: for every rejected search, afterwards `loading` is false;
`error` is the detail verbatim when the response carries a detail that is not
the empty string, and is `Search failed` when the detail is the empty string
and when there is no response, no body or no detail. -/
theorem C4_search_failure_error (s : SessionState) :
    (∀ err, (handleSearch s (.rejected err)).loading = false) ∧
    (∀ d : String, d ≠ "" →
      (handleSearch s
        (.rejected { response := some { data := some { detail := some d } } })).error = d) ∧
    (handleSearch s
      (.rejected { response := some { data := some { detail := some "" } } })).error
      = "Search failed" ∧
    (handleSearch s (.rejected { response := none })).error = "Search failed" ∧
    (handleSearch s (.rejected { response := some { data := none } })).error
      = "Search failed" ∧
    (handleSearch s
      (.rejected { response := some { data := some { detail := none } } })).error
      = "Search failed" := by
  refine ⟨?_, ?_, ?_, ?_, ?_, ?_⟩
  · intro err
    simp [handleSearch, handleSearchSettle, setLoading]
  · intro d hd
    simp [handleSearch, handleSearchSettle, setLoading, setError, searchErrorMessage,
      errorDetail, hd]
  all_goals
    simp [handleSearch, handleSearchSettle, setLoading, setError, searchErrorMessage,
      errorDetail]

/-- Witness of C4 amended: the detail `index unavailable` on a state that
shows an older error. -/
theorem C4_search_failure_error_witness :
    ("index unavailable" : String) ≠ "" ∧
    (handleSearch { initialState with error := "old" }
      (.rejected { response := some { data := some { detail := some "index unavailable" } } })
      ).error = "index unavailable" :=
  ⟨by decide,
   (C4_search_failure_error { initialState with error := "old" }).2.1
     "index unavailable" (by decide)⟩

/-- C5: for every state, whatever its `error` and `loading`, right after a
submission and before the request settles, `loading` is true and `error` is
the empty string, while `results`, `query`, `topK` and `rerank` are
unchanged. -/
theorem C5_submit_effect (s : SessionState) :
    (handleSearchSubmit s).1.loading = true ∧
    (handleSearchSubmit s).1.error = "" ∧
    (handleSearchSubmit s).1.results = s.results ∧
    (handleSearchSubmit s).1.query = s.query ∧
    (handleSearchSubmit s).1.topK = s.topK ∧
    (handleSearchSubmit s).1.rerank = s.rerank := by
  simp [handleSearchSubmit, setLoading, setError]

/-- C6: in every state reached from the initial state by any sequence of field
edits, submissions, fulfilments, rejections and feedback calls, in any order
and number, it is not the case that `loading` is true while `error` is not
empty. -/
theorem C6_loading_excludes_error (es : List Event) :
    ¬ ((run initialState es).loading = true ∧ (run initialState es).error ≠ "") := by
  have h0 : LoadingExcludesError initialState := by
    simp [LoadingExcludesError, initialState]
  have h := run_preserves es initialState h0
  rintro ⟨hl, he⟩
  rcases h with h | h
  · rw [hl] at h; exact Bool.noConfusion h
  · exact he h

/-! ### Feedback -/

/-- C7: for every state, sentence hash, relevance flag and outcome of the
request, `sendFeedback` leaves the whole session state as it was; after a
rejected request in particular `error` is what it was. -/
theorem C7_feedback_frame (s : SessionState) (sentenceHash : String) (isRelevant : Bool)
    (o : FeedbackOutcome) :
    (sendFeedback s sentenceHash isRelevant o).state = s ∧
    (sendFeedback s sentenceHash isRelevant .rejected).state.error = s.error := by
  cases o <;> simp [sendFeedback]

/-- C8: every call of `sendFeedback` sends exactly one request, whose body
holds the query of the state, the sentence hash and the flag, and raises
exactly one notification: after a fulfilled request a success reading
`Marked Relevant` for the flag true and `Marked Not Relevant` for the flag
false, after a rejected request an error reading `Feedback failed`. -/
theorem C8_feedback_effects (s : SessionState) (sentenceHash : String) (isRelevant : Bool) :
    (∀ o, (sendFeedback s sentenceHash isRelevant o).requests =
      [{ query := s.query, sentence_hash := sentenceHash, is_relevant := isRelevant }]) ∧
    (∀ o, (sendFeedback s sentenceHash isRelevant o).toasts.length = 1) ∧
    (sendFeedback s sentenceHash true .fulfilled).toasts = [Toast.success "Marked Relevant"] ∧
    (sendFeedback s sentenceHash false .fulfilled).toasts
      = [Toast.success "Marked Not Relevant"] ∧
    (sendFeedback s sentenceHash isRelevant .rejected).toasts
      = [Toast.error "Feedback failed"] := by
  refine ⟨?_, ?_, ?_, ?_, ?_⟩
  · intro o; cases o <;> simp [sendFeedback]
  · intro o; cases o <;> simp [sendFeedback]
  all_goals simp [sendFeedback]

/-! ### The display preference -/

/-- What the initialiser of `darkMode` does when the entry is absent or holds
JSON: it returns false for an absent entry, returns the boolean that the
application stored, and for every text that `JSON.parse` accepts it returns a
value without throwing, namely the stored boolean when the text is that of a
boolean and false when the value is falsy (`null`, zero, the empty string). -/
theorem loadDarkMode_parsable :
    loadDarkMode none = Except.ok (JSValue.bool false) ∧
    (∀ b : Bool, loadDarkMode (some (jsonStringifyBool b)) = Except.ok (JSValue.bool b)) ∧
    (∀ (text : String) (v : JSValue), jsonParse text = Except.ok v →
      (∃ w, loadDarkMode (some text) = Except.ok w) ∧
      (∀ b, v = JSValue.bool b → loadDarkMode (some text) = Except.ok (JSValue.bool b)) ∧
      (v.truthy = false → loadDarkMode (some text) = Except.ok (JSValue.bool false))) := by
  refine ⟨rfl, ?_, ?_⟩
  · intro b
    cases b
    · rfl
    · rfl
  · intro text v h
    refine ⟨?_, ?_, ?_⟩
    · by_cases ht : v.truthy = true
      · exact ⟨v, by simp [loadDarkMode, h, ht]⟩
      · exact ⟨JSValue.bool false, by simp [loadDarkMode, h, ht]⟩
    · intro b hb
      subst hb
      cases b <;> simp [loadDarkMode, h, JSValue.truthy]
    · intro ht
      simp [loadDarkMode, h, ht]

/-- C9, the code at the failing input: for the stored text `abc`, which is not
JSON, `JSON.parse` throws a `SyntaxError`, and the initialiser of `darkMode`,
which has no handler around it, throws it too instead of yielding false. -/
theorem C9_loadDarkMode_unparsable :
    jsonParse "abc" = Except.error JSError.syntaxError ∧
    loadDarkMode (some "abc") = Except.error JSError.syntaxError ∧
    loadDarkMode (some "abc") ≠ Except.ok (JSValue.bool false) := by
  refine ⟨rfl, rfl, ?_⟩
  intro h
  have h2 : (Except.error JSError.syntaxError : Except JSError JSValue)
      = Except.ok (JSValue.bool false) := h
  exact Except.noConfusion h2

/-! ### Overlapping searches -/

/-- C10, as stated, fails: from the initial state, when the first response to
arrive is a transport failure and the last one a success with an empty list,
`error` ends as `Search failed`, whereas the last response alone would have
left it empty; and when a success with one result arrives first and a failure
last, `results` ends as that result, whereas the failure alone would have left
the list empty. -/
theorem C10_mixed_outcomes_counterexample :
    (overlappingSearches initialState (.rejected { response := none }) (.fulfilled [])).error
      = "Search failed" ∧
    (handleSearch initialState (.fulfilled [])).error = "" ∧
    searchView (overlappingSearches initialState (.rejected { response := none })
      (.fulfilled [])) ≠ searchView (handleSearch initialState (.fulfilled [])) ∧
    searchView (overlappingSearches initialState
      (.fulfilled [{ sentence_hash := "abc123", text := "t", source := none, score := none,
                     justification := none }])
      (.rejected { response := none }))
      ≠ searchView (handleSearch initialState (.rejected { response := none })) := by
  decide

/-- C10, amended: for every pair of overlapping submissions and every
combination of outcomes, once both have settled `loading` is false, `results`
is the payload of the last response when that response is a success, and
`error` is the message of the last response when that response is a failure;
and when the two responses are of the same kind (both successes or both
failures), `results`, `loading` and `error` are exactly those that the last
response would have produced as the only submission from the state before the
submissions. -/
theorem C10_last_response_wins (s : SessionState) (first last : SearchOutcome) :
    (overlappingSearches s first last).loading = false ∧
    (∀ data, (overlappingSearches s first (.fulfilled data)).results = data) ∧
    (∀ err, (overlappingSearches s first (.rejected err)).error = searchErrorMessage err) ∧
    (first.sameKind last = true →
      searchView (overlappingSearches s first last) = searchView (handleSearch s last)) := by
  refine ⟨?_, ?_, ?_, ?_⟩
  · cases last <;> simp [overlappingSearches, handleSearchSettle, setLoading]
  · intro data
    simp [overlappingSearches, handleSearchSettle, setLoading, setResults]
  · intro err
    simp [overlappingSearches, handleSearchSettle, setLoading, setError]
  · intro h
    cases first <;> cases last <;>
      simp_all [SearchOutcome.sameKind, searchView, overlappingSearches, handleSearch,
        handleSearchSubmit, handleSearchSettle, setLoading, setError, setResults]

/-- Witness of C10 amended: two failures, a transport failure first and a
response with the detail `index unavailable` last. -/
theorem C10_last_response_wins_witness :
    SearchOutcome.sameKind (.rejected { response := none })
      (.rejected { response := some { data := some { detail := some "index unavailable" } } })
      = true ∧
    searchView (overlappingSearches initialState (.rejected { response := none })
      (.rejected { response := some { data := some { detail := some "index unavailable" } } }))
      = searchView (handleSearch initialState
      (.rejected { response := some { data := some { detail := some "index unavailable" } } })) :=
  ⟨rfl,
   (C10_last_response_wins initialState (.rejected { response := none })
     (.rejected { response := some { data := some { detail := some "index unavailable" } } })
     ).2.2.2 rfl⟩

end ResumeSearch
